import Mathlib

/-!
Verification of the conversation-memory subsystem of the JD assistant
(source: src/App.py).  Python strings are embedded as Lean `String`;
Python primitives `str.strip`, `str.split`, `str.join` are given
semantically equivalent Lean definitions (`pyStrip`, `pyWords`, `pyJoin`).
File IO is embedded by an explicit `FileState`; the JSON text of the
conversations file is abstracted to its parsed `JValue` (the Python functions
`json.dump` and `json.load` are mutually inverse on the values produced here).
Fallible effects (the model backend, the flat-log write, TTS) are passed
in as explicit parameters; a Python exception escaping a function is an
`Except.error` result.
-/

namespace JD

/-- A turn: one (user_text, assistant_text) pair, as stored in
`conv["turns"]`. -/
abbrev Turn := String × String

/-- A conversation record `{"id": ..., "title": ..., "turns": ...}`. -/
structure Conv where
  id : String
  title : String
  turns : List Turn
  deriving DecidableEq, Repr

/-- One flat-log record `{"instruction": ..., "output": ...}`. -/
structure FlatRec where
  instruction : String
  output : String
  deriving DecidableEq, Repr

/-- A role-tagged chat message. -/
structure Message where
  role : String
  content : String
  deriving DecidableEq, Repr

/-- Python `str.strip()` on the underlying character list: drop leading and
trailing whitespace. -/
def pyStripData (l : List Char) : List Char :=
  (l.dropWhile Char.isWhitespace).rdropWhile Char.isWhitespace

/-- Python `str.strip()`. -/
def pyStrip (s : String) : String :=
  ⟨pyStripData s.data⟩

/-- Worker for Python `str.split()` (no separator argument): accumulate the
current word (reversed) in `acc`, emit it at each whitespace run. -/
def pyWordsGo : List Char → List Char → List String
  | [], acc => if acc.isEmpty then [] else [String.mk acc.reverse]
  | c :: rest, acc =>
    if c.isWhitespace then
      if acc.isEmpty then pyWordsGo rest [] else String.mk acc.reverse :: pyWordsGo rest []
    else
      pyWordsGo rest (c :: acc)

/-- Python `str.split()`: whitespace-separated tokens, empties discarded. -/
def pyWords (l : List Char) : List String :=
  pyWordsGo l []

/-- Python `sep.join(list)`. -/
def pyJoin (sep : String) : List String → String
  | [] => ""
  | [x] => x
  | x :: y :: ys => x ++ sep ++ pyJoin sep (y :: ys)

/-- A JSON value (the parse of a JSON document). -/
inductive JValue where
  | null
  | bool (b : Bool)
  | num (n : Int)
  | str (s : String)
  | arr (l : List JValue)
  | obj (fields : List (String × JValue))

/-- State of the durable conversations file: absent, present but not valid
JSON, or present with parsed content `v`. -/
inductive FileState where
  | absent
  | malformed
  | content (v : JValue)

/-- Embeds `load_conversations` (App.py:31-42): missing file yields `[]`; a parse
failure is caught and yields `[]`; a parsed top-level array yields its
elements; any other top-level value falls through to `[]`. -/
def load_conversations : FileState → List JValue
  | .absent => []
  | .malformed => []
  | .content v =>
    match v with
    | .arr l => l
    | _ => []

/-- JSON encoding of one turn: the two-element array `[u, b]`. -/
def encodeTurn (t : Turn) : JValue :=
  .arr [.str t.1, .str t.2]

/-- JSON encoding of one conversation, with the field order produced by
`json.dump` on the dicts built in App.py (insertion order). -/
def encodeConv (c : Conv) : JValue :=
  .obj [("id", .str c.id), ("title", .str c.title),
        ("turns", .arr (c.turns.map encodeTurn))]

/-- Embeds `save_conversations` (App.py:45-48): opens the file in mode "w"
(overwriting whatever was there) and dumps the full snapshot. -/
def save_conversations (convs : List Conv) (_fs : FileState) : FileState :=
  .content (.arr (convs.map encodeConv))

/-- Decoding of one stored turn, mirroring the `for u, b in turns`
destructuring in App.py. -/
def decodeTurn : JValue → Option Turn
  | .arr [.str u, .str b] => some (u, b)
  | _ => none

/-- Decoding of a stored turns array, element by element. -/
def decodeTurns : List JValue → Option (List Turn)
  | [] => some []
  | v :: rest =>
    match decodeTurn v, decodeTurns rest with
    | some t, some ts => some (t :: ts)
    | _, _ => none

/-- Decoding of one stored conversation, mirroring the field accesses
`conv["id"]`, `conv["title"]`, `conv["turns"]` on the stored shape. -/
def decodeConv : JValue → Option Conv
  | .obj [("id", .str i), ("title", .str t), ("turns", .arr ts)] =>
    (decodeTurns ts).map fun turns => ⟨i, t, turns⟩
  | _ => none

/-- Decoding of the whole stored snapshot, element by element. -/
def decodeSnapshot : List JValue → Option (List Conv)
  | [] => some []
  | v :: rest =>
    match decodeConv v, decodeSnapshot rest with
    | some c, some cs => some (c :: cs)
    | _, _ => none

/-- Embeds `log_flat_pair` (App.py:51-57): no record when either side is falsy
(empty); otherwise one appended record, whose write may raise (`logOk`
says whether the underlying append succeeds). -/
def log_flat_pair (user_text assistant_text : String) (logOk : Bool) :
    Except String (List FlatRec) :=
  if user_text = "" ∨ assistant_text = "" then
    .ok []
  else if logOk then
    .ok [⟨user_text, assistant_text⟩]
  else
    .error "flat log write failure"

/-- The fixed persona system message (App.py:76-82). -/
def system_msg : Message :=
  ⟨"system",
   "You are JD, an AI Assistant created by Kunal Debnath Sir. You remember previous chats and stay friendly and concise."⟩

/-- Embeds `all_memory_pairs` (App.py:65-71): flatten the turns of every
conversation,
in store order, into instruction/output pairs. -/
def all_memory_pairs (convs : List Conv) : List FlatRec :=
  convs.flatMap fun c => c.turns.map fun t => ⟨t.1, t.2⟩

/-- The rendering of one remembered pair (App.py:89). -/
def renderPair (p : FlatRec) : String :=
  "User: " ++ p.instruction ++ "\nAssistant: " ++ p.output

/-- Embeds `build_messages_from_memory` (App.py:74-100): system message, then, if
there is any flattened history, a second system message holding the last
50 pairs (`mem_pairs[-50:]`) rendered and joined by blank lines. -/
def build_messages_from_memory (convs : List Conv) : List Message :=
  let mem_pairs := all_memory_pairs convs
  let mem_texts := (mem_pairs.drop (mem_pairs.length - 50)).map renderPair
  let block := if mem_texts.isEmpty then "" else pyJoin "\n\n" mem_texts
  if block = "" then
    [system_msg]
  else
    [system_msg,
     ⟨"system", "Here is a summary of past conversation turns:\n\n" ++ block⟩]

/-- Embeds `make_tts` (App.py:105-116): empty text yields ""; otherwise the fixed
audio path, or "" when the synthesis backend fails (`ttsOk`), the failure
being caught. -/
def make_tts (text : String) (ttsOk : Bool) : String :=
  if text = "" then ""
  else if ttsOk then "audio/jd_reply.mp3"
  else ""

/-- Embeds `extract_title_from_history` (App.py:119-128). -/
def extract_title_from_history (history : List Turn) : String :=
  match history with
  | [] => "New chat"
  | (u, _) :: _ =>
    let first_user := pyStrip u
    if first_user = "" then "New chat"
    else
      let words := pyWords first_user.data
      let short := pyJoin " " (words.take 10)
      short ++ (if words.length > 10 then "…" else "")

/-- The `for conv in conversations: if conv["id"] == conv_id: ... break`
update loop of App.py:184-190: replace the first conversation whose id
matches, recomputing its title; `none` when no id matches (`found` stays
false). -/
def update_existing (convs : List Conv) (cid : String) (newTurns : List Turn) :
    Option (List Conv) :=
  match convs with
  | [] => none
  | c :: rest =>
    if c.id = cid then
      some (⟨c.id, extract_title_from_history newTurns, newTurns⟩ :: rest)
    else
      (update_existing rest cid newTurns).map fun l => c :: l

/-- The message list assembled for the backend call (App.py:159-165):
memory context, then the current session turns, then the new user input. -/
def assemble_messages (convs : List Conv) (hist : List Turn) (input : String) :
    List Message :=
  build_messages_from_memory convs ++
    (hist.flatMap fun t => [⟨"user", t.1⟩, ⟨"assistant", t.2⟩]) ++
    [⟨"user", input⟩]

/-- Embeds `ollama.chat` wrapped in try/except (App.py:168-172): a successful call
yields its reply, a raised exception `e` yields the in-band string
"Ollama error: " followed by the exception text. -/
def answer_of (backendResult : Except String String) : String :=
  match backendResult with
  | .ok a => a
  | .error e => "Ollama error: " ++ e

/-- The value returned by one completed `jd_reply_core` call, together with
its effects on the snapshot, the store and the flat log. -/
structure ReplyOut where
  history : List Turn
  audio : Option String
  convId : Option String
  titles : List String
  convs : List Conv
  saved : Bool
  flat : List FlatRec
  deriving DecidableEq, Repr

/-- The update-or-create branch of App.py:176-195: with no active id, or an
active id matching no stored conversation, append a newly created
conversation under the freshly allocated id; otherwise replace the first
turns of the first matching conversation wholesale and recompute its title.  Returns
the updated snapshot and the resolved id. -/
def resolve_conversation (convs : List Conv) (conv_id : Option String)
    (new_history : List Turn) (fresh_id : String) : List Conv × String :=
  let created : Conv :=
    ⟨fresh_id, extract_title_from_history new_history, new_history⟩
  match conv_id with
  | none => (convs ++ [created], fresh_id)
  | some cid =>
    match update_existing convs cid new_history with
    | some updated => (updated, cid)
    | none => (convs ++ [created], fresh_id)

/-- Embeds `jd_reply_core` (App.py:133-205).  `backend` is the model backend
(`ollama.chat`) as a function of the assembled messages; `fresh_id` is the
value `str(uuid.uuid4())` would allocate; `logOk` and `ttsOk` say whether
the flat-log append and the TTS synthesis succeed.  An uncaught exception
(the unguarded flat-log write) is an `Except.error` result. -/
def jd_reply_core (user_input : String) (speak : Bool) (ui_history : List Turn)
    (conv_id : Option String) (convs : List Conv)
    (backend : List Message → Except String String) (fresh_id : String)
    (logOk : Bool) (ttsOk : Bool) : Except String ReplyOut :=
  let input := pyStrip user_input
  if input = "" then
    .ok ⟨ui_history, none, conv_id, convs.map Conv.title, convs, false, []⟩
  else
    let messages := assemble_messages convs ui_history input
    let answer := answer_of (backend messages)
    let new_history := ui_history ++ [(input, answer)]
    let resolved := resolve_conversation convs conv_id new_history fresh_id
    match log_flat_pair input answer logOk with
    | .error e => .error e
    | .ok recs =>
      let audio := if speak then some (make_tts answer ttsOk) else none
      .ok ⟨new_history, audio, some resolved.2, resolved.1.map Conv.title,
           resolved.1, true, recs⟩

/-- The full updated session turns produced by a non-empty message: the
prior session turns plus the one new (trimmed input, reply) pair. -/
def new_session (convs : List Conv) (hist : List Turn) (ui : String)
    (backend : List Message → Except String String) : List Turn :=
  hist ++ [(pyStrip ui,
            answer_of (backend (assemble_messages convs hist (pyStrip ui))))]

/-- Embeds `load_conversation_by_title` (App.py:208-217): empty title yields
`([], none)`; otherwise the first conversation whose title matches wins. -/
def load_conversation_by_title (title : String) (convs : List Conv) :
    List Turn × Option String :=
  if title = "" then ([], none)
  else
    match convs.find? fun c => c.title == title with
    | some c => (c.turns, some c.id)
    | none => ([], none)

/-- The `on_select_topic` UI handler (App.py:616-624): empty selection
yields `([], none)`; otherwise look the conversation up by title and show
only its last 5 turns (`full_turns[-5:]`).  (The guard `if full_turns is None`
in the handler is vacuous: the lookup always returns a list.) -/
def on_select_topic (topic_title : String) (convs : List Conv) :
    List Turn × Option String :=
  if topic_title = "" then ([], none)
  else
    let r := load_conversation_by_title topic_title convs
    (r.1.drop (r.1.length - 5), r.2)

/-! Helper lemmas about the embedded Python string primitives. -/

theorem eq_empty_iff_data (s : String) : s = "" ↔ s.data = [] := by
  rw [String.ext_iff]

theorem append_ne_empty_left (s t : String) (h : s ≠ "") : s ++ t ≠ "" := by
  intro he
  apply h
  rw [eq_empty_iff_data] at he ⊢
  rw [String.data_append] at he
  exact List.append_eq_nil.mp he |>.1

theorem pyJoin_ne_empty (sep x : String) (xs : List String) (h : x ≠ "") :
    pyJoin sep (x :: xs) ≠ "" := by
  cases xs with
  | nil => simpa [pyJoin] using h
  | cons y ys =>
    simp only [pyJoin]
    exact append_ne_empty_left _ _ (append_ne_empty_left _ _ h)

theorem renderPair_ne_empty (p : FlatRec) : renderPair p ≠ "" := by
  unfold renderPair
  exact append_ne_empty_left _ _
    (append_ne_empty_left _ _ (append_ne_empty_left _ _ (by decide)))

theorem pyStrip_data (s : String) : (pyStrip s).data = pyStripData s.data := rfl

theorem pyStrip_eq_empty_iff (s : String) :
    pyStrip s = "" ↔ ∀ c ∈ s.data, c.isWhitespace := by
  rw [eq_empty_iff_data, pyStrip_data]
  unfold pyStripData
  rw [List.rdropWhile_eq_nil_iff]
  constructor
  · intro h c hc
    rcases List.mem_append.mp
        ((List.takeWhile_append_dropWhile (p := Char.isWhitespace)
          (l := s.data)) ▸ hc) with h1 | h2
    · exact List.mem_takeWhile_imp h1
    · exact h c h2
  · intro h c hc
    refine h c ?_
    rw [← List.takeWhile_append_dropWhile (p := Char.isWhitespace) (l := s.data)]
    exact List.mem_append_right _ hc

theorem dropWhile_head_false {α : Type} {p : α → Bool} :
    ∀ (l : List α) (c : α) (t : List α), l.dropWhile p = c :: t → p c = false := by
  intro l
  induction l with
  | nil => intro c t h; simp [List.dropWhile] at h
  | cons a as ih =>
    intro c t h
    by_cases hp : p a
    · rw [List.dropWhile_cons_of_pos hp] at h
      exact ih c t h
    · rw [List.dropWhile_cons_of_neg hp] at h
      injection h with h1 h2
      subst h1
      simpa using hp

theorem pyWordsGo_ne_nil (l : List Char) :
    ∀ acc : List Char, acc ≠ [] →
      ∃ w ws, pyWordsGo l acc = w :: ws ∧ w ≠ "" := by
  induction l with
  | nil =>
    intro acc hacc
    refine ⟨String.mk acc.reverse, [], ?_, ?_⟩
    · simp [pyWordsGo, List.isEmpty_iff, hacc]
    · simpa [eq_empty_iff_data, List.reverse_eq_nil_iff] using hacc
  | cons c rest ih =>
    intro acc hacc
    by_cases hw : c.isWhitespace
    · refine ⟨String.mk acc.reverse, pyWordsGo rest [], ?_, ?_⟩
      · simp [pyWordsGo, hw, List.isEmpty_iff, hacc]
      · simpa [eq_empty_iff_data, List.reverse_eq_nil_iff] using hacc
    · obtain ⟨w, ws, hws, hne⟩ := ih (c :: acc) (by simp)
      exact ⟨w, ws, by simp [pyWordsGo, hw, hws], hne⟩

theorem pyStrip_head_not_ws (s : String) (h : pyStrip s ≠ "") :
    ∃ c t, (pyStrip s).data = c :: t ∧ c.isWhitespace = false := by
  rw [ne_eq, eq_empty_iff_data, pyStrip_data] at h
  rw [pyStrip_data]
  unfold pyStripData at h ⊢
  obtain ⟨t2, ht2⟩ :=
    List.rdropWhile_prefix Char.isWhitespace (s.data.dropWhile Char.isWhitespace)
  rcases hr : (s.data.dropWhile Char.isWhitespace).rdropWhile Char.isWhitespace with
    _ | ⟨d, ds⟩
  · exact absurd hr h
  · refine ⟨d, ds, rfl, ?_⟩
    rw [hr] at ht2
    have hdw : s.data.dropWhile Char.isWhitespace = d :: (ds ++ t2) := by
      rw [← ht2]
      simp
    exact dropWhile_head_false s.data d (ds ++ t2) hdw

/-! Helper lemmas about the embedded operations. -/

theorem answer_of_err_ne_empty (e : String) : answer_of (Except.error e) ≠ "" :=
  append_ne_empty_left "Ollama error: " e (by decide)

theorem log_flat_pair_ok (u a : String) :
    log_flat_pair u a true =
      Except.ok (if u = "" ∨ a = "" then [] else [⟨u, a⟩]) := by
  by_cases h : u = "" ∨ a = "" <;> simp [log_flat_pair, h]

theorem log_flat_pair_fails (u a : String) (hu : u ≠ "") (ha : a ≠ "") :
    log_flat_pair u a false = Except.error "flat log write failure" := by
  simp [log_flat_pair, hu, ha]

theorem update_existing_eq_none (convs : List Conv) (cid : String)
    (ts : List Turn) (h : ∀ c ∈ convs, c.id ≠ cid) :
    update_existing convs cid ts = none := by
  induction convs with
  | nil => rfl
  | cons c rest ih =>
    have hc : c.id ≠ cid := h c (List.mem_cons_self c rest)
    simp only [update_existing, if_neg hc]
    rw [ih fun d hd => h d (List.mem_cons_of_mem c hd)]
    rfl

theorem update_existing_first (pre : List Conv) (c : Conv) (post : List Conv)
    (cid : String) (ts : List Turn) (hpre : ∀ d ∈ pre, d.id ≠ cid)
    (hc : c.id = cid) :
    update_existing (pre ++ c :: post) cid ts =
      some (pre ++ ⟨c.id, extract_title_from_history ts, ts⟩ :: post) := by
  induction pre with
  | nil => simp [update_existing, hc]
  | cons d rest ih =>
    have hd : d.id ≠ cid := hpre d (List.mem_cons_self d rest)
    simp only [List.cons_append, update_existing, if_neg hd, List.append_eq]
    rw [ih fun e he => hpre e (List.mem_cons_of_mem d he)]
    rfl

theorem find?_title_first (pre : List Conv) (c : Conv) (post : List Conv)
    (title : String) (hpre : ∀ d ∈ pre, d.title ≠ title) (hc : c.title = title) :
    List.find? (fun d => d.title == title) (pre ++ c :: post) = some c := by
  induction pre with
  | nil => simp [List.find?, hc]
  | cons d rest ih =>
    have hd : d.title ≠ title := hpre d (List.mem_cons_self d rest)
    simp only [List.cons_append, List.find?]
    rw [beq_eq_false_iff_ne.mpr hd]
    exact ih fun e he => hpre e (List.mem_cons_of_mem d he)

theorem decodeTurn_encodeTurn (t : Turn) : decodeTurn (encodeTurn t) = some t := by
  rcases t with ⟨u, b⟩
  rfl

theorem decodeTurns_encode (ts : List Turn) :
    decodeTurns (ts.map encodeTurn) = some ts := by
  induction ts with
  | nil => rfl
  | cons t rest ih =>
    simp [decodeTurns, decodeTurn_encodeTurn, ih]

theorem decodeConv_encodeConv (c : Conv) : decodeConv (encodeConv c) = some c := by
  rcases c with ⟨i, t, ts⟩
  simp [decodeConv, encodeConv, decodeTurns_encode]

theorem decodeSnapshot_encode (S : List Conv) :
    decodeSnapshot (S.map encodeConv) = some S := by
  induction S with
  | nil => rfl
  | cons c rest ih =>
    simp [decodeSnapshot, decodeConv_encodeConv, ih]

theorem resolve_conversation_create (convs : List Conv) (cid : Option String)
    (newHist : List Turn) (fresh : String)
    (h : cid = none ∨ ∀ c ∈ convs, some c.id ≠ cid) :
    resolve_conversation convs cid newHist fresh =
      (convs ++ [⟨fresh, extract_title_from_history newHist, newHist⟩], fresh) := by
  rcases h with rfl | hno
  · rfl
  · cases cid with
    | none => rfl
    | some i =>
      have hni : ∀ c ∈ convs, c.id ≠ i := by
        intro c hc he
        exact hno c hc (by rw [he])
      simp [resolve_conversation, update_existing_eq_none convs i newHist hni]

theorem resolve_conversation_found (pre : List Conv) (c : Conv) (post : List Conv)
    (i : String) (newHist : List Turn) (fresh : String)
    (hpre : ∀ d ∈ pre, d.id ≠ i) (hc : c.id = i) :
    resolve_conversation (pre ++ c :: post) (some i) newHist fresh =
      (pre ++ ⟨c.id, extract_title_from_history newHist, newHist⟩ :: post, i) := by
  simp [resolve_conversation, update_existing_first pre c post i newHist hpre hc]

theorem jd_reply_core_of_ne (ui : String) (speak : Bool) (hist : List Turn)
    (cid : Option String) (convs : List Conv)
    (backend : List Message → Except String String) (fresh : String)
    (logOk ttsOk : Bool) (hne : pyStrip ui ≠ "") :
    jd_reply_core ui speak hist cid convs backend fresh logOk ttsOk =
      (match log_flat_pair (pyStrip ui)
          (answer_of (backend (assemble_messages convs hist (pyStrip ui)))) logOk with
       | Except.error e => Except.error e
       | Except.ok recs =>
         Except.ok
           ⟨new_session convs hist ui backend,
            (if speak then
               some (make_tts
                 (answer_of (backend (assemble_messages convs hist (pyStrip ui)))) ttsOk)
             else none),
            some (resolve_conversation convs cid
              (new_session convs hist ui backend) fresh).2,
            (resolve_conversation convs cid
              (new_session convs hist ui backend) fresh).1.map Conv.title,
            (resolve_conversation convs cid
              (new_session convs hist ui backend) fresh).1,
            true, recs⟩) := by
  simp only [jd_reply_core, new_session]
  rw [if_neg hne]

theorem extract_title_ne (history : List Turn) :
    extract_title_from_history history ≠ "" := by
  rcases history with _ | ⟨⟨u, b⟩, rest⟩
  · decide
  · by_cases hs : pyStrip u = ""
    · simp only [extract_title_from_history, hs, if_pos]
      decide
    · obtain ⟨c, tl, hdata, hcw⟩ := pyStrip_head_not_ws u hs
      obtain ⟨w, ws, hws, hwne⟩ := pyWordsGo_ne_nil tl [c] (by simp)
      have hwords : pyWords (pyStrip u).data = w :: ws := by
        unfold pyWords
        rw [hdata]
        simp [pyWordsGo, hcw, hws]
      simp only [extract_title_from_history, if_neg hs, hwords]
      have h10 : (w :: ws).take 10 = w :: ws.take 9 := rfl
      rw [h10]
      exact append_ne_empty_left _ _ (pyJoin_ne_empty " " w _ hwne)

/-! Claim theorems. -/

/-- C7: for every input whose user text is empty or whitespace-only,
`jd_reply_core` performs no mutation at all: it returns the session turns
unchanged, no audio artifact, the active id unchanged and the current
titles list; the snapshot is unchanged, the store is not written and
nothing is logged. -/
theorem blank_input_no_mutation (ui : String) (speak : Bool) (hist : List Turn)
    (cid : Option String) (convs : List Conv)
    (backend : List Message → Except String String) (fresh : String)
    (logOk ttsOk : Bool) (h : ∀ c ∈ ui.data, c.isWhitespace) :
    jd_reply_core ui speak hist cid convs backend fresh logOk ttsOk =
      Except.ok ⟨hist, none, cid, convs.map Conv.title, convs, false, []⟩ := by
  have hs : pyStrip ui = "" := (pyStrip_eq_empty_iff ui).mpr h
  simp [jd_reply_core, hs]

theorem blank_input_no_mutation_witness :
    jd_reply_core "  " true [("q", "a")] (some "x") [⟨"x", "t", [("q", "a")]⟩]
        (fun _ => Except.ok "r") "f" true true =
      Except.ok ⟨[("q", "a")], none, some "x", ["t"],
        [⟨"x", "t", [("q", "a")]⟩], false, []⟩ :=
  blank_input_no_mutation "  " true [("q", "a")] (some "x")
    [⟨"x", "t", [("q", "a")]⟩] (fun _ => Except.ok "r") "f" true true (by decide)

/-- C8: `load_conversations` is a total function (it never raises): a
missing file, a malformed file and a non-array top level all yield `[]`,
and a top-level array yields its stored elements. -/
theorem load_never_raises :
    load_conversations FileState.absent = [] ∧
    load_conversations FileState.malformed = [] ∧
    (∀ l, load_conversations (FileState.content (JValue.arr l)) = l) ∧
    (∀ v, (∀ l, v ≠ JValue.arr l) →
       load_conversations (FileState.content v) = []) := by
  refine ⟨rfl, rfl, fun l => rfl, fun v hv => ?_⟩
  cases v with
  | arr l => exact absurd rfl (hv l)
  | null => rfl
  | bool b => rfl
  | num n => rfl
  | str s => rfl
  | obj f => rfl

theorem load_never_raises_witness :
    load_conversations (FileState.content (JValue.str "oops")) = [] :=
  load_never_raises.2.2.2 (JValue.str "oops") fun _ h => JValue.noConfusion h

/-- C9: decoding what `load_conversations` reads back after
`save_conversations` recovers the snapshot exactly, order and content
preserved; and saving the same snapshot twice leaves the identical durable
content a single save leaves. -/
theorem save_load_round_trip :
    (∀ (S : List Conv) (fs : FileState),
       decodeSnapshot (load_conversations (save_conversations S fs)) = some S) ∧
    (∀ (S : List Conv) (fs : FileState),
       save_conversations S (save_conversations S fs) = save_conversations S fs) := by
  constructor
  · intro S fs
    exact decodeSnapshot_encode S
  · intro S fs
    rfl

/-- C5: the title deriver returns the fixed placeholder on an empty turn
sequence or a whitespace-only first user text; otherwise the first 10
whitespace-separated tokens of the user text of the first turn joined by single
spaces, with the ellipsis marker appended exactly when more than 10 tokens
existed; the result depends only on the first turn and is never empty. -/
theorem derive_title_spec :
    extract_title_from_history [] = "New chat" ∧
    (∀ u b rest, (∀ c ∈ u.data, c.isWhitespace) →
       extract_title_from_history ((u, b) :: rest) = "New chat") ∧
    (∀ u b rest, pyStrip u ≠ "" →
       extract_title_from_history ((u, b) :: rest) =
         pyJoin " " ((pyWords (pyStrip u).data).take 10) ++
           (if (pyWords (pyStrip u).data).length > 10 then "…" else "")) ∧
    (∀ t rest, extract_title_from_history (t :: rest) =
       extract_title_from_history [t]) ∧
    (∀ history, extract_title_from_history history ≠ "") := by
  refine ⟨rfl, ?_, ?_, ?_, extract_title_ne⟩
  · intro u b rest h
    have hs : pyStrip u = "" := (pyStrip_eq_empty_iff u).mpr h
    simp [extract_title_from_history, hs]
  · intro u b rest h
    simp [extract_title_from_history, h]
  · intro t rest
    rcases t with ⟨u, b⟩
    rfl

theorem derive_title_spec_witness :
    extract_title_from_history [("a b c d e f g h i j k", "x")] =
        "a b c d e f g h i j…" ∧
    extract_title_from_history [("  ", "x")] = "New chat" := by
  constructor
  · have h := derive_title_spec.2.2.1 "a b c d e f g h i j k" "x" [] (by decide)
    exact h.trans (by decide)
  · exact derive_title_spec.2.1 "  " "x" [] (by decide)

/-- C6: topic selection returns empty turns and no id when the title is
empty or matches no conversation; otherwise the turns and id of the first
conversation in snapshot order whose title equals the given title; hence
on a snapshot with non-empty, pairwise-distinct titles it recovers every
own turns of every conversation. -/
theorem select_topic_spec :
    (∀ convs, load_conversation_by_title "" convs = ([], none)) ∧
    (∀ title convs, (∀ c ∈ convs, c.title ≠ title) →
       load_conversation_by_title title convs = ([], none)) ∧
    (∀ pre (c : Conv) post, c.title ≠ "" → (∀ d ∈ pre, d.title ≠ c.title) →
       load_conversation_by_title c.title (pre ++ c :: post) =
         (c.turns, some c.id)) ∧
    (∀ convs (c : Conv), (∀ d ∈ convs, d.title ≠ "") →
       convs.Pairwise (fun a b => a.title ≠ b.title) → c ∈ convs →
       load_conversation_by_title c.title convs = (c.turns, some c.id)) := by
  have first : ∀ pre (c : Conv) post, c.title ≠ "" →
      (∀ d ∈ pre, d.title ≠ c.title) →
      load_conversation_by_title c.title (pre ++ c :: post) =
        (c.turns, some c.id) := by
    intro pre c post htitle hpre
    unfold load_conversation_by_title
    rw [if_neg htitle, find?_title_first pre c post c.title hpre rfl]
  refine ⟨fun convs => rfl, ?_, first, ?_⟩
  · intro title convs h
    unfold load_conversation_by_title
    by_cases ht : title = ""
    · rw [if_pos ht]
    · rw [if_neg ht]
      rw [List.find?_eq_none.mpr fun c hc => by simp [h c hc]]
  · intro convs c hne hpair hc
    obtain ⟨pre, post, rfl⟩ := List.append_of_mem hc
    have hpre : ∀ d ∈ pre, d.title ≠ c.title := by
      intro d hd
      exact (List.pairwise_append.mp hpair).2.2 d hd c (List.mem_cons_self c post)
    exact first pre c post (hne c hc) hpre

theorem select_topic_spec_witness :
    load_conversation_by_title "B" [⟨"1", "A", [("a", "b")]⟩,
        ⟨"2", "B", [("c", "d"), ("e", "f")]⟩] =
      ([("c", "d"), ("e", "f")], some "2") :=
  select_topic_spec.2.2.2
    [⟨"1", "A", [("a", "b")]⟩, ⟨"2", "B", [("c", "d"), ("e", "f")]⟩]
    ⟨"2", "B", [("c", "d"), ("e", "f")]⟩ (by decide) (by decide) (by decide)

/-- C4: the assembled context holds exactly the last min(50, N) of the N
pairs obtained by flattening the turns of every conversation in store order,
rendered in original order inside a single second system message, pairs
never split; the second system message is omitted exactly when the
flattened history is empty. -/
theorem context_window_spec (convs : List Conv) :
    ((all_memory_pairs convs).drop ((all_memory_pairs convs).length - 50)).length =
      min 50 (all_memory_pairs convs).length ∧
    (all_memory_pairs convs).take ((all_memory_pairs convs).length - 50) ++
        (all_memory_pairs convs).drop ((all_memory_pairs convs).length - 50) =
      all_memory_pairs convs ∧
    build_messages_from_memory convs =
      (if all_memory_pairs convs = [] then [system_msg]
       else [system_msg,
             ⟨"system", "Here is a summary of past conversation turns:\n\n" ++
               pyJoin "\n\n"
                 (((all_memory_pairs convs).drop
                   ((all_memory_pairs convs).length - 50)).map renderPair)⟩]) := by
  refine ⟨?_, List.take_append_drop _ _, ?_⟩
  · rw [List.length_drop]
    omega
  · unfold build_messages_from_memory
    rcases hw : (all_memory_pairs convs).drop ((all_memory_pairs convs).length - 50)
      with _ | ⟨p, rest⟩
    · have hp : all_memory_pairs convs = [] := by
        have hlen := congrArg List.length hw
        rw [List.length_drop] at hlen
        simp only [List.length_nil] at hlen
        rcases hq : all_memory_pairs convs with _ | ⟨q, qs⟩
        · rfl
        · rw [hq] at hlen
          simp only [List.length_cons] at hlen
          omega
      simp [hp]
    · have hne : all_memory_pairs convs ≠ [] := by
        intro h
        rw [h] at hw
        simp at hw
      have hblock : pyJoin "\n\n" (renderPair p :: rest.map renderPair) ≠ "" :=
        pyJoin_ne_empty "\n\n" (renderPair p) (rest.map renderPair)
          (renderPair_ne_empty p)
      simp only [hw, List.map_cons]
      simp [hne, hblock]

/-- C1: for every non-empty trimmed user message (with the flat-log write
succeeding), the target conversation is resolved as follows.  If the
active id is `none` or matches no stored conversation id, a new
conversation with the freshly allocated id (assumed unique), the full
updated session turns and a derived title is appended to the snapshot.
Otherwise the first conversation whose id equals the active id has its
turns wholesale-replaced by the full updated session turns and its title
recomputed, and no new conversation is appended. -/
theorem conversation_resolution (ui : String) (speak : Bool) (hist : List Turn)
    (cid : Option String) (convs : List Conv)
    (backend : List Message → Except String String) (fresh : String)
    (ttsOk : Bool) (hne : pyStrip ui ≠ "")
    (hfresh : ∀ c ∈ convs, c.id ≠ fresh) :
    ((cid = none ∨ (∀ c ∈ convs, some c.id ≠ cid)) →
       (jd_reply_core ui speak hist cid convs backend fresh true ttsOk).toOption.map
           ReplyOut.convs =
         some (convs ++
           [⟨fresh, extract_title_from_history (new_session convs hist ui backend),
             new_session convs hist ui backend⟩]) ∧
       (jd_reply_core ui speak hist cid convs backend fresh true ttsOk).toOption.map
           ReplyOut.convId = some (some fresh) ∧
       (jd_reply_core ui speak hist cid convs backend fresh true ttsOk).toOption.map
           ReplyOut.history = some (new_session convs hist ui backend) ∧
       fresh ∉ convs.map Conv.id) ∧
    (∀ i pre (c : Conv) post, cid = some i → convs = pre ++ c :: post →
       (∀ d ∈ pre, d.id ≠ i) → c.id = i →
       (jd_reply_core ui speak hist cid convs backend fresh true ttsOk).toOption.map
           ReplyOut.convs =
         some (pre ++
           ⟨c.id, extract_title_from_history (new_session convs hist ui backend),
            new_session convs hist ui backend⟩ :: post) ∧
       (jd_reply_core ui speak hist cid convs backend fresh true ttsOk).toOption.map
           ReplyOut.convId = some (some i) ∧
       (jd_reply_core ui speak hist cid convs backend fresh true ttsOk).toOption.map
           (fun out => out.convs.length) = some convs.length) := by
  rw [jd_reply_core_of_ne ui speak hist cid convs backend fresh true ttsOk hne,
    log_flat_pair_ok]
  constructor
  · intro hcase
    rw [resolve_conversation_create convs cid (new_session convs hist ui backend)
      fresh hcase]
    refine ⟨rfl, rfl, rfl, ?_⟩
    intro hmem
    obtain ⟨c, hc, hcid⟩ := List.mem_map.mp hmem
    exact hfresh c hc hcid
  · intro i pre c post hcid hconv hpre hci
    subst hcid
    subst hconv
    rw [resolve_conversation_found pre c post i (new_session (pre ++ c :: post)
      hist ui backend) fresh hpre hci]
    refine ⟨rfl, rfl, ?_⟩
    show some ((pre ++ (⟨c.id,
        extract_title_from_history (new_session (pre ++ c :: post) hist ui backend),
        new_session (pre ++ c :: post) hist ui backend⟩ : Conv) :: post).length) =
      some ((pre ++ c :: post).length)
    simp

theorem conversation_resolution_witness :
    ((none = (none : Option String) ∨
        (∀ c ∈ ([] : List Conv), some c.id ≠ none)) →
       (jd_reply_core "hi" false [] none [] (fun _ => Except.ok "yo") "f1" true
           true).toOption.map ReplyOut.convs =
         some ([] ++
           [⟨"f1",
             extract_title_from_history (new_session [] [] "hi" fun _ => Except.ok "yo"),
             new_session [] [] "hi" fun _ => Except.ok "yo"⟩]) ∧
       (jd_reply_core "hi" false [] none [] (fun _ => Except.ok "yo") "f1" true
           true).toOption.map ReplyOut.convId = some (some "f1") ∧
       (jd_reply_core "hi" false [] none [] (fun _ => Except.ok "yo") "f1" true
           true).toOption.map ReplyOut.history =
         some (new_session [] [] "hi" fun _ => Except.ok "yo") ∧
       "f1" ∉ ([] : List Conv).map Conv.id) ∧
    (∀ i pre (c : Conv) post, (none : Option String) = some i →
       ([] : List Conv) = pre ++ c :: post → (∀ d ∈ pre, d.id ≠ i) → c.id = i →
       (jd_reply_core "hi" false [] none [] (fun _ => Except.ok "yo") "f1" true
           true).toOption.map ReplyOut.convs =
         some (pre ++
           ⟨c.id,
            extract_title_from_history (new_session [] [] "hi" fun _ => Except.ok "yo"),
            new_session [] [] "hi" fun _ => Except.ok "yo"⟩ :: post) ∧
       (jd_reply_core "hi" false [] none [] (fun _ => Except.ok "yo") "f1" true
           true).toOption.map ReplyOut.convId = some (some i) ∧
       (jd_reply_core "hi" false [] none [] (fun _ => Except.ok "yo") "f1" true
           true).toOption.map (fun out => out.convs.length) =
         some ([] : List Conv).length) :=
  conversation_resolution "hi" false [] none [] (fun _ => Except.ok "yo") "f1"
    true (by decide) (by simp)

/-- C2: for every non-empty trimmed user message, a model-backend failure
still lets `jd_reply_core` run to completion: the assistant text of the
single appended pair is the descriptive (never empty) error string, and that
pair is still persisted and appended to the flat log. -/
theorem backend_failure_swallowed (ui : String) (speak : Bool) (hist : List Turn)
    (cid : Option String) (convs : List Conv) (err fresh : String)
    (ttsOk : Bool) (hne : pyStrip ui ≠ "") :
    (jd_reply_core ui speak hist cid convs (fun _ => Except.error err) fresh true
        ttsOk).toOption.isSome = true ∧
    (jd_reply_core ui speak hist cid convs (fun _ => Except.error err) fresh true
        ttsOk).toOption.map ReplyOut.history =
      some (hist ++ [(pyStrip ui, "Ollama error: " ++ err)]) ∧
    (jd_reply_core ui speak hist cid convs (fun _ => Except.error err) fresh true
        ttsOk).toOption.map ReplyOut.flat =
      some [⟨pyStrip ui, "Ollama error: " ++ err⟩] ∧
    (jd_reply_core ui speak hist cid convs (fun _ => Except.error err) fresh true
        ttsOk).toOption.map ReplyOut.saved = some true ∧
    "Ollama error: " ++ err ≠ "" := by
  have hans : answer_of (Except.error err) ≠ "" := answer_of_err_ne_empty err
  rw [jd_reply_core_of_ne ui speak hist cid convs (fun _ => Except.error err)
    fresh true ttsOk hne, log_flat_pair_ok]
  rw [if_neg (by push_neg; exact ⟨hne, hans⟩)]
  exact ⟨rfl, rfl, rfl, rfl, hans⟩

theorem backend_failure_swallowed_witness :
    (jd_reply_core "hi" false [] none [] (fun _ => Except.error "boom") "f1" true
        true).toOption.isSome = true ∧
    (jd_reply_core "hi" false [] none [] (fun _ => Except.error "boom") "f1" true
        true).toOption.map ReplyOut.history =
      some ([] ++ [(pyStrip "hi", "Ollama error: " ++ "boom")]) ∧
    (jd_reply_core "hi" false [] none [] (fun _ => Except.error "boom") "f1" true
        true).toOption.map ReplyOut.flat =
      some [⟨pyStrip "hi", "Ollama error: " ++ "boom"⟩] ∧
    (jd_reply_core "hi" false [] none [] (fun _ => Except.error "boom") "f1" true
        true).toOption.map ReplyOut.saved = some true ∧
    "Ollama error: " ++ "boom" ≠ "" :=
  backend_failure_swallowed "hi" false [] none [] "boom" "f1" true (by decide)

/-- C3 counterexample: at a concrete non-empty input, a failing flat-log
append makes `jd_reply_core` itself fail (the exception escapes to the
caller), contradicting the claim that the turn still completes. -/
theorem log_failure_cex :
    jd_reply_core "hi" false [] none [] (fun _ => Except.ok "yo") "f1" false
        true =
      Except.error "flat log write failure" := by
  rfl

/-- C3 amended: a failure of the flat-log append, when a record is actually
written (non-empty trimmed input and non-empty assistant text), propagates
to the caller of `jd_reply_core`: the turn does not complete normally. -/
theorem log_failure_propagates (ui : String) (speak : Bool) (hist : List Turn)
    (cid : Option String) (convs : List Conv)
    (backend : List Message → Except String String) (fresh : String)
    (ttsOk : Bool) (hne : pyStrip ui ≠ "")
    (hans : answer_of (backend (assemble_messages convs hist (pyStrip ui))) ≠ "") :
    jd_reply_core ui speak hist cid convs backend fresh false ttsOk =
      Except.error "flat log write failure" := by
  rw [jd_reply_core_of_ne ui speak hist cid convs backend fresh false ttsOk hne,
    log_flat_pair_fails (pyStrip ui)
      (answer_of (backend (assemble_messages convs hist (pyStrip ui)))) hne hans]

theorem log_failure_witness :
    jd_reply_core "ask me" true [("q", "a")] (some "z")
        [⟨"z", "Old", [("q", "a")]⟩] (fun _ => Except.ok "reply") "f2" false
        true =
      Except.error "flat log write failure" :=
  log_failure_propagates "ask me" true [("q", "a")] (some "z")
    [⟨"z", "Old", [("q", "a")]⟩] (fun _ => Except.ok "reply") "f2" true
    (by decide) (by decide)

/-- C10: selecting a topic through the UI handler installs only the last 5
turns of the matched conversation together with its id; with more than 5
turns that is a strict suffix of length 5, and a subsequent update through
`jd_reply_core` wholesale-replaces the turns of the conversation with those 5
turns plus the single new pair (6 turns persisted). -/
theorem select_shows_last_five (pre : List Conv) (c : Conv) (post : List Conv)
    (hpre : ∀ d ∈ pre, d.title ≠ c.title) (htitle : c.title ≠ "")
    (hlen : 5 < c.turns.length) :
    on_select_topic c.title (pre ++ c :: post) =
      (c.turns.drop (c.turns.length - 5), some c.id) ∧
    (c.turns.drop (c.turns.length - 5)).length = 5 ∧
    c.turns.take (c.turns.length - 5) ++ c.turns.drop (c.turns.length - 5) =
      c.turns ∧
    c.turns.take (c.turns.length - 5) ≠ [] ∧
    (∀ ui speak backend fresh ttsOk, pyStrip ui ≠ "" →
       (∀ d ∈ pre, d.id ≠ c.id) →
       (jd_reply_core ui speak (c.turns.drop (c.turns.length - 5)) (some c.id)
           (pre ++ c :: post) backend fresh true ttsOk).toOption.map
           ReplyOut.convs =
         some (pre ++
           ⟨c.id,
            extract_title_from_history (new_session (pre ++ c :: post)
              (c.turns.drop (c.turns.length - 5)) ui backend),
            new_session (pre ++ c :: post)
              (c.turns.drop (c.turns.length - 5)) ui backend⟩ :: post) ∧
       (new_session (pre ++ c :: post)
         (c.turns.drop (c.turns.length - 5)) ui backend).length = 6) := by
  have hfirst :
      load_conversation_by_title c.title (pre ++ c :: post) =
        (c.turns, some c.id) := by
    unfold load_conversation_by_title
    rw [if_neg htitle, find?_title_first pre c post c.title hpre rfl]
  refine ⟨?_, ?_, List.take_append_drop _ _, ?_, ?_⟩
  · unfold on_select_topic
    rw [if_neg htitle, hfirst]
  · rw [List.length_drop]
    omega
  · intro htake
    have := congrArg List.length htake
    rw [List.length_take] at this
    simp only [List.length_nil] at this
    omega
  · intro ui speak backend fresh ttsOk hne hids
    rw [jd_reply_core_of_ne ui speak (c.turns.drop (c.turns.length - 5))
      (some c.id) (pre ++ c :: post) backend fresh true ttsOk hne,
      log_flat_pair_ok,
      resolve_conversation_found pre c post c.id
        (new_session (pre ++ c :: post) (c.turns.drop (c.turns.length - 5)) ui
          backend) fresh hids rfl]
    refine ⟨rfl, ?_⟩
    unfold new_session
    rw [List.length_append, List.length_drop]
    simp
    omega

theorem select_shows_last_five_witness :
    on_select_topic "T"
        ([] ++ (⟨"i", "T", [("1", "1"), ("2", "2"), ("3", "3"), ("4", "4"),
          ("5", "5"), ("6", "6"), ("7", "7")]⟩ : Conv) :: []) =
      ([("3", "3"), ("4", "4"), ("5", "5"), ("6", "6"), ("7", "7")],
        some "i") := by
  have h := select_shows_last_five []
    ⟨"i", "T", [("1", "1"), ("2", "2"), ("3", "3"), ("4", "4"), ("5", "5"),
      ("6", "6"), ("7", "7")]⟩ [] (by simp) (by decide) (by decide)
  exact h.1.trans (by decide)

end JD
